import Mathlib

/- Shallow embedding of the UNO match engine from src/main.py.
   Python lists are Lean lists in the same order; Python list.pop removes the
   last element, modelled by pyPop.  Mutation of the shared game state is
   modelled by explicit state passing.  random.shuffle is modelled by a
   function parameter required (in theorems) to produce a permutation of its
   input.  A Python exception (IndexError on pop from an empty list, or the
   nonterminating wild-seed loop) is modelled by returning none. -/

namespace UNO

structure Card where
  color : String
  value : String
  id : String
deriving DecidableEq, Repr

structure Player where
  id : String
  name : String
  isHost : Bool
  hand : List Card
  calledUno : Bool
deriving DecidableEq, Repr

structure GameState where
  players : List Player
  deck : List Card
  discardPile : List Card
  currentColor : Option String
  currentValue : String
  currentPlayerIndex : Nat
  direction : Int
  hasDrawn : Bool
  winner : Option String
deriving DecidableEq, Repr

/- Broadcast events sent by the handlers (we only track the ones the claims
   mention: game_update and game_over). -/
inductive Event where
  | gameUpdate : Event
  | gameOver : String → Event
deriving DecidableEq, Repr

def COLORS : List String := ["red", "blue", "green", "yellow"]

def VALUES : List String :=
  ["0", "1", "2", "3", "4", "5", "6", "7", "8", "9", "skip", "reverse", "draw2"]

/- create_deck, lines 23-36: one copy of each value per color plus a second
   copy for every value except "0", then 4 wild and 4 wild-draw-four. -/
def create_deck : List Card :=
  (COLORS.flatMap fun color =>
    VALUES.flatMap fun value =>
      { color := color, value := value, id := color ++ "-" ++ value ++ "-1" } ::
        (if value ≠ "0" then
          [{ color := color, value := value, id := color ++ "-" ++ value ++ "-2" }]
        else []))
  ++ (List.range 4).flatMap fun i =>
      [ { color := "wild", value := "wild", id := "wild-" ++ toString i },
        { color := "wild", value := "wild4", id := "wild4-" ++ toString i } ]

/- Python list.pop(): remove and return the LAST element; none on empty. -/
def pyPop : List α → Option (α × List α)
  | [] => none
  | [a] => some (a, [])
  | a :: b :: rest =>
    match pyPop (b :: rest) with
    | none => none
    | some (c, t) => some (c, a :: t)

/- get_next_player_index, lines 38-40.  Python % on a positive modulus is the
   mathematical (nonnegative) remainder, i.e. Int.emod. -/
def get_next_player_index (s : GameState) : Nat :=
  ((((s.currentPlayerIndex : Int) + s.direction)) % (s.players.length : Int)).toNat

/- The guarded two-pop loop used for the uno penalty (lines 169-172) and the
   draw-two effect (lines 181-183): for _ in range(n): if deck: hand.append(deck.pop()). -/
def draw_loop : Nat → List Card → List Card → List Card × List Card
  | 0, hand, deck => (hand, deck)
  | n + 1, hand, deck =>
    match pyPop deck with
    | none => draw_loop n hand deck
    | some (c, rest) => draw_loop n (hand ++ [c]) rest

/- Lines 168-172: penalty applied when the hand dropped to one card without a
   prior uno call; returns the new hand of the playing player and the new deck. -/
def penalty_draw (hand1 : List Card) (calledUno : Bool) (deck : List Card) :
    List Card × List Card :=
  if hand1.length = 1 ∧ calledUno = false then draw_loop 2 hand1 deck
  else (hand1, deck)

/- Lines 175-183: special effect of the played card.  The draw2 branch reads
   the next player from the already-updated players list (aliasing in the
   Python code), so it receives the state after the penalty update. -/
def apply_effect (card : Card) (s2 : GameState) : Option GameState :=
  if card.value = "reverse" then
    some { s2 with direction := s2.direction * (-1) }
  else if card.value = "skip" then
    some { s2 with currentPlayerIndex := get_next_player_index s2 }
  else if card.value = "draw2" then
    match s2.players[get_next_player_index s2]? with
    | none => none
    | some nxt =>
      let res := draw_loop 2 nxt.hand s2.deck
      some { s2 with
        players := s2.players.set (get_next_player_index s2) { nxt with hand := res.1 },
        deck := res.2 }
  else some s2

/- Lines 185-186: advance currentPlayerIndex by direction and reset the
   has-drawn-this-turn flag. -/
def advance_turn (s3 : GameState) : GameState :=
  { s3 with currentPlayerIndex := get_next_player_index s3, hasDrawn := false }

/- Lines 158-188 of handle_play_card, after the turn and card-possession
   checks succeeded: remove the card, push it on the discard pile, update the
   active color and value, then win check, penalty, effect and turn advance. -/
def play_after_checks (player : Player) (card : Card) (chosenColor : Option String)
    (s : GameState) : Option (GameState × List Event) :=
  let hand1 := player.hand.erase card
  let players1 := s.players.set s.currentPlayerIndex { player with hand := hand1 }
  let s1 := { s with
    players := players1,
    discardPile := s.discardPile ++ [card],
    currentColor := if card.color = "wild" then chosenColor else some card.color,
    currentValue := card.value }
  if hand1.length = 0 then
    some ({ s1 with winner := some player.name }, [Event.gameOver player.name])
  else
    let pen := penalty_draw hand1 player.calledUno s1.deck
    let players2 := players1.set s.currentPlayerIndex
      { player with hand := pen.1, calledUno := false }
    let s2 := { s1 with players := players2, deck := pen.2 }
    (apply_effect card s2).map fun s3 => (advance_turn s3, [Event.gameUpdate])

/- The intermediate state reached in a successful non-winning play after the
   card removal, discard push, active color and value update, penalty and flag
   reset (lines 158-173), i.e. the state the card effect (lines 175-183) is
   applied to.  This names the state play_after_checks builds internally; the
   lemma play_shape below proves the agreement. -/
def play_mid (player : Player) (card : Card) (chosenColor : Option String)
    (s : GameState) : GameState :=
  { players := (s.players.set s.currentPlayerIndex
        { player with hand := player.hand.erase card }).set s.currentPlayerIndex
      { player with
        hand := (penalty_draw (player.hand.erase card) player.calledUno s.deck).1,
        calledUno := false },
    deck := (penalty_draw (player.hand.erase card) player.calledUno s.deck).2,
    discardPile := s.discardPile ++ [card],
    currentColor := if card.color = "wild" then chosenColor else some card.color,
    currentValue := card.value,
    currentPlayerIndex := s.currentPlayerIndex,
    direction := s.direction,
    hasDrawn := s.hasDrawn,
    winner := s.winner }

/- handle_play_card, lines 140-188.  A play by a non-current player or of a
   card id absent from the current hand returns with no state change and no
   broadcast. -/
def handle_play_card (pid cid : String) (chosenColor : Option String) (s : GameState) :
    Option (GameState × List Event) :=
  match s.players[s.currentPlayerIndex]? with
  | none => none
  | some player =>
    if player.id = pid then
      match player.hand.find? (fun c => c.id == cid) with
      | none => some (s, [])
      | some card => play_after_checks player card chosenColor s
    else some (s, [])

/- handle_draw, lines 190-211.  When the deck is empty the discard pile minus
   its top card is shuffled into a new deck (f models random.shuffle); the
   former top card stays as the whole discard pile.  Then one card is popped
   into the current hand and hasDrawn is set. -/
def handle_draw (f : List Card → List Card) (pid : String) (s : GameState) :
    Option (GameState × List Event) :=
  match s.players[s.currentPlayerIndex]? with
  | none => none
  | some p =>
    if p.id = pid then
      let piles : Option (List Card × List Card) :=
        if s.deck.isEmpty then
          match pyPop s.discardPile with
          | none => none
          | some (top, rest) => some (f rest, [top])
        else some (s.deck, s.discardPile)
      match piles with
      | none => none
      | some (deck1, discard1) =>
        match pyPop deck1 with
        | none => none
        | some (c, deck2) =>
          some ({ s with
            players := s.players.set s.currentPlayerIndex { p with hand := p.hand ++ [c] },
            deck := deck2,
            discardPile := discard1,
            hasDrawn := true }, [Event.gameUpdate])
    else some (s, [])

/- handle_call_uno, lines 213-222: sets calledUno on every player whose id
   matches and whose hand has exactly two cards, then ALWAYS broadcasts a
   game_update. -/
def handle_call_uno (pid : String) (s : GameState) : GameState × List Event :=
  ({ s with players := s.players.map fun p =>
      if p.id = pid ∧ p.hand.length = 2 then { p with calledUno := true } else p },
   [Event.gameUpdate])

/- Pop n cards off the end of the deck, in pop order (lines 116-117:
   p.hand = [deck.pop() for _ in range(7)]). -/
def popN : Nat → List Card → Option (List Card × List Card)
  | 0, d => some ([], d)
  | n + 1, d =>
    match pyPop d with
    | none => none
    | some (c, d1) =>
      match popN n d1 with
      | none => none
      | some (cs, d2) => some (c :: cs, d2)

/- Lines 116-118: deal 7 cards to each player in roster order and reset the
   calledUno flag. -/
def deal_hands : List Player → List Card → Option (List Player × List Card)
  | [], d => some ([], d)
  | p :: ps, d =>
    match popN 7 d with
    | none => none
    | some (h, d1) =>
      match deal_hands ps d1 with
      | none => none
      | some (ps1, d2) => some ({ p with hand := h, calledUno := false } :: ps1, d2)

/- Lines 120-123: pop the seed discard card; while it is wild, put it back at
   the bottom of the deck and pop again.  The fuel bounds the rotation: after
   length many steps every position has been examined, so running out of fuel
   corresponds exactly to the nonterminating all-wild case. -/
def find_seed : Nat → List Card → Option (Card × List Card)
  | 0, _ => none
  | fuel + 1, d =>
    match pyPop d with
    | none => none
    | some (start, d1) =>
      if start.color = "wild" then find_seed fuel (start :: d1) else some (start, d1)

/- handle_start_game, lines 105-138, with the shuffled deck supplied as a
   parameter (create_deck shuffles uniformly, so the theorems quantify over
   permutations of create_deck). -/
def handle_start_game (shuffled : List Card) (pid : String) (players0 : List Player) :
    Option GameState :=
  if players0.any (fun p => p.id == pid && p.isHost) then
    match deal_hands players0 shuffled with
    | none => none
    | some (players1, d1) =>
      match find_seed d1.length d1 with
      | none => none
      | some (start, d2) =>
        some {
          players := players1,
          deck := d2,
          discardPile := [start],
          currentColor := some start.color,
          currentValue := start.value,
          currentPlayerIndex := 0,
          direction := 1,
          hasDrawn := false,
          winner := none }
  else none

/- The in-match operations routed by handler (lines 234-236). -/
inductive Op where
  | play : String → String → Option String → Op
  | draw : String → Op
  | callUno : String → Op

def applyOp (f : List Card → List Card) : Op → GameState → Option (GameState × List Event)
  | Op.play pid cid cc, s => handle_play_card pid cid cc s
  | Op.draw pid, s => handle_draw f pid s
  | Op.callUno pid, s => some (handle_call_uno pid s)

/- A shuffle outcome: random.shuffle permutes its input in place. -/
def ValidShuffle (f : List Card → List Card) : Prop := ∀ l : List Card, (f l).Perm l

def handSizes (ps : List Player) : Nat := (ps.map fun p => p.hand.length).sum

def totalCards (s : GameState) : Nat :=
  handSizes s.players + s.deck.length + s.discardPile.length

/- States of a started match reachable by valid operations. -/
inductive Reachable : GameState → Prop
  | start (d : List Card) (pid : String) (ps : List Player) (s : GameState) :
      d.Perm create_deck → handle_start_game d pid ps = some s → Reachable s
  | step (f : List Card → List Card) (op : Op) (s s' : GameState) (evs : List Event) :
      Reachable s → ValidShuffle f → applyOp f op s = some (s', evs) → Reachable s'

def emptyState : GameState :=
  { players := [], deck := [], discardPile := [], currentColor := none,
    currentValue := "", currentPlayerIndex := 0, direction := 1,
    hasDrawn := false, winner := none }

/- Concrete states used by witnesses and counterexamples. -/

/- A two-player lobby roster (hosting player first, as created by
   handle_create_game and handle_join_game). -/
def roster2 : List Player :=
  [ { id := "p0", name := "Ann", isHost := true, hand := [], calledUno := false },
    { id := "p1", name := "Ben", isHost := false, hand := [], calledUno := false } ]

/- The started two-player match obtained with the identity shuffle outcome. -/
def s0 : GameState := (handle_start_game create_deck "p0" roster2).getD emptyState

/- C2 scenario: Alice is the current player and holds a single card. -/
def sC2 : GameState :=
  { players :=
      [ { id := "a", name := "Alice", isHost := true,
          hand := [⟨"red", "5", "r5"⟩], calledUno := true },
        { id := "b", name := "Bob", isHost := false,
          hand := [⟨"blue", "1", "b1"⟩, ⟨"blue", "2", "b2"⟩], calledUno := false } ],
    deck := [⟨"green", "7", "g7"⟩],
    discardPile := [⟨"red", "3", "r3"⟩],
    currentColor := some "red", currentValue := "3",
    currentPlayerIndex := 0, direction := 1, hasDrawn := false, winner := none }

def sC2win : GameState := ((handle_play_card "a" "r5" none sC2).getD (emptyState, [])).1

def sC2post : GameState :=
  ((handle_draw (fun l => l) "a" sC2win).getD (emptyState, [])).1

/- C3 scenario: three players, the current player plays a draw-two. -/
def sC3 : GameState :=
  { players :=
      [ { id := "p0", name := "A", isHost := true,
          hand := [⟨"red", "draw2", "rd2"⟩, ⟨"red", "1", "r1a"⟩, ⟨"red", "2", "r2a"⟩],
          calledUno := false },
        { id := "p1", name := "B", isHost := false,
          hand := [⟨"blue", "1", "b1"⟩], calledUno := false },
        { id := "p2", name := "C", isHost := false,
          hand := [⟨"green", "1", "g1"⟩], calledUno := false } ],
    deck := [⟨"yellow", "1", "y1"⟩, ⟨"yellow", "2", "y2"⟩],
    discardPile := [⟨"red", "9", "r9"⟩],
    currentColor := some "red", currentValue := "9",
    currentPlayerIndex := 0, direction := 1, hasDrawn := false, winner := none }

def sC3res : GameState := ((handle_play_card "p0" "rd2" none sC3).getD (emptyState, [])).1

/- C4 scenario: Ann is the current player; Ben tries to play out of turn. -/
def sC4 : GameState :=
  { players :=
      [ { id := "a", name := "Ann", isHost := true,
          hand := [⟨"red", "5", "r5"⟩, ⟨"red", "6", "r6"⟩], calledUno := false },
        { id := "b", name := "Ben", isHost := false,
          hand := [⟨"blue", "1", "b1"⟩], calledUno := false } ],
    deck := [⟨"green", "7", "g7"⟩],
    discardPile := [⟨"red", "3", "r3"⟩],
    currentColor := some "red", currentValue := "3",
    currentPlayerIndex := 0, direction := 1, hasDrawn := false, winner := none }

/- C6 scenario: empty deck, three cards on the discard pile. -/
def sC6w : GameState :=
  { players :=
      [ { id := "a", name := "Ann", isHost := true,
          hand := [⟨"red", "5", "r5"⟩], calledUno := false },
        { id := "b", name := "Ben", isHost := false,
          hand := [⟨"blue", "1", "b1"⟩], calledUno := false } ],
    deck := [],
    discardPile := [⟨"red", "1", "d1"⟩, ⟨"red", "2", "d2"⟩, ⟨"red", "3", "d3"⟩],
    currentColor := some "red", currentValue := "3",
    currentPlayerIndex := 0, direction := 1, hasDrawn := false, winner := none }

/- C7 counterexample scenario: the penalty fires with an EMPTY deck. -/
def sC7 : GameState :=
  { players :=
      [ { id := "a", name := "Ann", isHost := true,
          hand := [⟨"red", "1", "ra"⟩, ⟨"red", "2", "rb"⟩], calledUno := false },
        { id := "b", name := "Ben", isHost := false,
          hand := [⟨"blue", "5", "b5"⟩], calledUno := false } ],
    deck := [],
    discardPile := [⟨"red", "9", "r9"⟩],
    currentColor := some "red", currentValue := "9",
    currentPlayerIndex := 0, direction := 1, hasDrawn := false, winner := none }

def sC7res : GameState := ((handle_play_card "a" "ra" none sC7).getD (emptyState, [])).1

/- C7 witness scenario: penalty with at least two cards in the deck. -/
def sC7w : GameState :=
  { players :=
      [ { id := "a", name := "Ann", isHost := true,
          hand := [⟨"red", "1", "ra"⟩, ⟨"red", "2", "rb"⟩], calledUno := false },
        { id := "b", name := "Ben", isHost := false,
          hand := [⟨"blue", "5", "b5"⟩], calledUno := false } ],
    deck := [⟨"green", "1", "g1"⟩, ⟨"green", "2", "g2"⟩],
    discardPile := [⟨"red", "9", "r9"⟩],
    currentColor := some "red", currentValue := "9",
    currentPlayerIndex := 0, direction := 1, hasDrawn := false, winner := none }

/- C8 counterexample scenario: the caller holds three cards, so the call must
   be a no-op; the handler still broadcasts. -/
def sC8 : GameState :=
  { players :=
      [ { id := "a", name := "Ann", isHost := true,
          hand := [⟨"red", "1", "ra"⟩, ⟨"red", "2", "rb"⟩, ⟨"red", "3", "rc"⟩],
          calledUno := false },
        { id := "b", name := "Ben", isHost := false,
          hand := [⟨"blue", "5", "b5"⟩], calledUno := false } ],
    deck := [⟨"green", "7", "g7"⟩],
    discardPile := [⟨"red", "9", "r9"⟩],
    currentColor := some "red", currentValue := "9",
    currentPlayerIndex := 0, direction := 1, hasDrawn := false, winner := none }

/- C8 witness scenario: the caller holds exactly two cards. -/
def sC8w : GameState :=
  { players :=
      [ { id := "a", name := "Ann", isHost := true,
          hand := [⟨"red", "1", "ra"⟩, ⟨"red", "2", "rb"⟩], calledUno := false },
        { id := "b", name := "Ben", isHost := false,
          hand := [⟨"blue", "5", "b5"⟩], calledUno := false } ],
    deck := [⟨"green", "7", "g7"⟩],
    discardPile := [⟨"red", "9", "r9"⟩],
    currentColor := some "red", currentValue := "9",
    currentPlayerIndex := 0, direction := 1, hasDrawn := false, winner := none }

/- C10 witness scenario: the current player plays from a three-card hand after
   having called uno, with hasDrawn set. -/
def sC10w : GameState :=
  { players :=
      [ { id := "a", name := "Ann", isHost := true,
          hand := [⟨"red", "1", "ra"⟩, ⟨"red", "2", "rb"⟩, ⟨"red", "3", "rc"⟩],
          calledUno := true },
        { id := "b", name := "Ben", isHost := false,
          hand := [⟨"blue", "5", "b5"⟩], calledUno := false } ],
    deck := [⟨"green", "7", "g7"⟩],
    discardPile := [⟨"red", "9", "r9"⟩],
    currentColor := some "red", currentValue := "9",
    currentPlayerIndex := 0, direction := 1, hasDrawn := true, winner := none }

/- A fourteen-player lobby roster: dealing consumes 98 cards, so only 9 cards
   remain in the deck after the seed card is drawn. -/
def roster14 : List Player :=
  (List.range 14).map fun i =>
    { id := "p" ++ toString i, name := "P" ++ toString i, isHost := i == 0,
      hand := [], calledUno := false }

/- Starting from the 14-player match (identity shuffle outcome), the current
   player p0 draws k times in a row; drawing never advances the turn and
   nothing limits repeated draws. -/
def drawChain : Nat → Option GameState
  | 0 => handle_start_game create_deck "p0" roster14
  | k + 1 =>
    (drawChain k).bind fun s => (applyOp (fun l => l) (Op.draw "p0") s).map Prod.fst

/- After 9 draws the draw pile is empty and the discard pile holds only the
   seed card: the next draw crashes (DeckExhausted). -/
def sBad : GameState := (drawChain 9).getD emptyState

/- Helper lemmas. -/

theorem pyPop_sound : ∀ {l t : List α} {c : α}, pyPop l = some (c, t) → l = t ++ [c] := by
  intro l
  induction l with
  | nil => intro t c h; simp [pyPop] at h
  | cons a rest ih =>
    intro t c h
    cases rest with
    | nil => simp [pyPop] at h; simp [h.1, h.2]
    | cons b r =>
      rw [pyPop] at h
      cases hp : pyPop (b :: r) with
      | none => rw [hp] at h; simp at h
      | some ct =>
        obtain ⟨c1, t1⟩ := ct
        rw [hp] at h
        simp at h
        obtain ⟨hc, ht⟩ := h
        subst hc ht
        simpa using congrArg (a :: ·) (ih hp)

theorem pyPop_none : ∀ {l : List α}, pyPop l = none → l = [] := by
  intro l h
  cases l with
  | nil => rfl
  | cons a rest =>
    cases rest with
    | nil => simp [pyPop] at h
    | cons b r =>
      rw [pyPop] at h
      cases hp : pyPop (b :: r) with
      | none => exact absurd (pyPop_none hp) (by simp)
      | some ct => rw [hp] at h; simp at h

theorem pyPop_some_of_ne_nil {l : List α} (h : l ≠ []) :
    ∃ c t, pyPop l = some (c, t) := by
  cases hp : pyPop l with
  | none => exact absurd (pyPop_none hp) h
  | some ct => exact ⟨ct.1, ct.2, by simp⟩

theorem pyPop_length {l t : List α} {c : α} (h : pyPop l = some (c, t)) :
    l.length = t.length + 1 := by
  rw [pyPop_sound h]; simp

/- One hand entry replaced in the roster: additive form of the hand-size sum. -/
theorem sum_hand_set : ∀ (ps : List Player) (i : Nat) (p q : Player),
    ps[i]? = some p →
    handSizes (ps.set i q) + p.hand.length = handSizes ps + q.hand.length := by
  intro ps
  induction ps with
  | nil => intro i p q h; simp at h
  | cons a l ih =>
    intro i p q h
    cases i with
    | zero =>
      simp at h
      subst h
      simp [handSizes, List.set]
      omega
    | succ n =>
      simp at h
      have := ih n p q h
      simp [handSizes, List.set] at this ⊢
      omega

theorem handSizes_cons (p : Player) (ps : List Player) :
    handSizes (p :: ps) = p.hand.length + handSizes ps := by
  simp [handSizes]

/- draw_loop moves cards from the deck to the hand, never creating or losing
   any. -/
theorem draw_loop_conserve : ∀ (n : Nat) (hand deck : List Card),
    (draw_loop n hand deck).1.length + (draw_loop n hand deck).2.length
      = hand.length + deck.length := by
  intro n
  induction n with
  | zero => intro hand deck; simp [draw_loop]
  | succ m ih =>
    intro hand deck
    rw [draw_loop]
    cases hp : pyPop deck with
    | none => simpa using ih hand deck
    | some ct =>
      obtain ⟨c, rest⟩ := ct
      have hlen := pyPop_length hp
      have := ih (hand ++ [c]) rest
      simp at this ⊢
      omega

theorem draw_loop_zero (hand deck : List Card) : draw_loop 0 hand deck = (hand, deck) := rfl

theorem draw_loop_succ_some {deck rest : List Card} {c : Card} (n : Nat) (hand : List Card)
    (h : pyPop deck = some (c, rest)) :
    draw_loop (n + 1) hand deck = draw_loop n (hand ++ [c]) rest := by
  rw [draw_loop, h]

/- With at least two cards in the deck, draw_loop 2 grows the hand by exactly
   two cards. -/
theorem draw_loop_two {hand deck : List Card} (h : 2 ≤ deck.length) :
    (draw_loop 2 hand deck).1.length = hand.length + 2 ∧
      (draw_loop 2 hand deck).2.length + 2 = deck.length := by
  obtain ⟨c1, t1, hp1⟩ := pyPop_some_of_ne_nil (l := deck) (by
    intro hnil; rw [hnil] at h; simp at h)
  have hl1 := pyPop_length hp1
  obtain ⟨c2, t2, hp2⟩ := pyPop_some_of_ne_nil (l := t1) (by
    intro hnil; rw [hnil] at hl1; simp at hl1; omega)
  have hl2 := pyPop_length hp2
  rw [show (2 : Nat) = 1 + 1 from rfl, draw_loop_succ_some 1 hand hp1,
    draw_loop_succ_some 0 (hand ++ [c1]) hp2, draw_loop_zero]
  simp
  omega

theorem penalty_conserve (hand1 : List Card) (u : Bool) (deck : List Card) :
    (penalty_draw hand1 u deck).1.length + (penalty_draw hand1 u deck).2.length
      = hand1.length + deck.length := by
  rw [penalty_draw]
  split
  · exact draw_loop_conserve 2 hand1 deck
  · rfl

/- apply_effect: conservation of hands plus deck, and the frame on the other
   fields.  Per-index: the calledUno flag of every player is untouched, and
   every entry other than the one at the next index is untouched. -/
theorem apply_effect_spec {card : Card} {s2 s3 : GameState}
    (h : apply_effect card s2 = some s3) :
    handSizes s3.players + s3.deck.length = handSizes s2.players + s2.deck.length ∧
    s3.discardPile = s2.discardPile ∧
    s3.winner = s2.winner ∧
    s3.players.length = s2.players.length ∧
    (∀ i q, s2.players[i]? = some q →
      ∃ q', s3.players[i]? = some q' ∧ q'.calledUno = q.calledUno ∧ q'.id = q.id ∧
        (i ≠ get_next_player_index s2 → q' = q)) := by
  rw [apply_effect] at h
  split at h
  · -- reverse
    cases h
    exact ⟨rfl, rfl, rfl, rfl, fun i q hq => ⟨q, hq, rfl, rfl, fun _ => rfl⟩⟩
  split at h
  · -- skip
    cases h
    exact ⟨rfl, rfl, rfl, rfl, fun i q hq => ⟨q, hq, rfl, rfl, fun _ => rfl⟩⟩
  split at h
  · -- draw2
    cases hn : s2.players[get_next_player_index s2]? with
    | none => rw [hn] at h; exact absurd h (by simp)
    | some nxt =>
      rw [hn] at h
      cases h
      refine ⟨?_, rfl, rfl, by simp, ?_⟩
      · have hsum := sum_hand_set s2.players (get_next_player_index s2) nxt
          { nxt with hand := (draw_loop 2 nxt.hand s2.deck).1 } hn
        have hdl := draw_loop_conserve 2 nxt.hand s2.deck
        dsimp only at hsum ⊢
        omega
      · intro i q hq
        by_cases hi : i = get_next_player_index s2
        · have hqn : q = nxt := by
            rw [hi, hn] at hq
            exact (Option.some_inj.mp hq).symm
          refine ⟨{ nxt with hand := (draw_loop 2 nxt.hand s2.deck).1 }, ?_, ?_, ?_, ?_⟩
          · rw [hi]
            exact List.getElem?_set_self ((List.getElem?_eq_some.mp hn).1)
          · rw [hqn]
          · rw [hqn]
          · intro hne; exact absurd hi hne
        · exact ⟨q, by rw [List.getElem?_set_ne (fun he => hi he.symm)]; exact hq,
            rfl, rfl, fun _ => rfl⟩
  · -- plain card
    cases h
    exact ⟨rfl, rfl, rfl, rfl, fun i q hq => ⟨q, hq, rfl, rfl, fun _ => rfl⟩⟩

theorem create_deck_length : create_deck.length = 108 := by decide

/- Card conservation through the successful-play tail of handle_play_card. -/
theorem play_after_checks_conserve {player : Player} {card : Card} {cc : Option String}
    {s : GameState} {r : GameState × List Event}
    (hg : s.players[s.currentPlayerIndex]? = some player)
    (hmem : card ∈ player.hand)
    (h : play_after_checks player card cc s = some r) :
    totalCards r.1 = totalCards s := by
  have hlt : s.currentPlayerIndex < s.players.length := (List.getElem?_eq_some.mp hg).1
  have herase : (player.hand.erase card).length + 1 = player.hand.length := by
    have := List.length_erase_of_mem hmem
    have hpos : 0 < player.hand.length := List.length_pos.mpr (List.ne_nil_of_mem hmem)
    omega
  have hsum1 := sum_hand_set s.players s.currentPlayerIndex player
    { player with hand := player.hand.erase card } hg
  simp only [] at hsum1
  rw [play_after_checks] at h
  split at h
  · -- winning play
    cases h
    simp only [totalCards, List.length_append, List.length_cons, List.length_nil]
    omega
  · -- non-winning play: penalty, effect, advance
    have hget1 : (s.players.set s.currentPlayerIndex
        { player with hand := player.hand.erase card })[s.currentPlayerIndex]? =
        some { player with hand := player.hand.erase card } :=
      List.getElem?_set_self (by simpa using hlt)
    have hsum2 := sum_hand_set _ s.currentPlayerIndex
      { player with hand := player.hand.erase card }
      { player with
        hand := (penalty_draw (player.hand.erase card) player.calledUno s.deck).1,
        calledUno := false } hget1
    simp only [] at hsum2
    have hpen := penalty_conserve (player.hand.erase card) player.calledUno s.deck
    simp only [Option.map_eq_some'] at h
    obtain ⟨s3, he, hr⟩ := h
    have heff := apply_effect_spec he
    obtain ⟨heff1, heff2, -, -, -⟩ := heff
    simp only [] at heff1 heff2
    rw [← hr]
    simp only [advance_turn, totalCards, heff2, List.length_append, List.length_cons,
      List.length_nil]
    omega

/- handle_play_card never creates or destroys a card. -/
theorem play_conserve {pid cid : String} {cc : Option String} {s : GameState}
    {r : GameState × List Event} (h : handle_play_card pid cid cc s = some r) :
    totalCards r.1 = totalCards s := by
  rw [handle_play_card] at h
  cases hg : s.players[s.currentPlayerIndex]? with
  | none => rw [hg] at h; exact absurd h (by simp)
  | some player =>
    rw [hg] at h
    simp only [] at h
    split at h
    · cases hfind : player.hand.find? (fun c => c.id == cid) with
      | none => rw [hfind] at h; cases h; rfl
      | some card =>
        rw [hfind] at h
        exact play_after_checks_conserve hg (List.mem_of_find?_eq_some hfind) h
    · cases h; rfl

/- handle_draw never creates or destroys a card (recycling moves the discard
   pile, minus its top card, through a permutation into the deck). -/
theorem draw_conserve {f : List Card → List Card} {pid : String} {s : GameState}
    {r : GameState × List Event} (hf : ValidShuffle f)
    (h : handle_draw f pid s = some r) :
    totalCards r.1 = totalCards s := by
  rw [handle_draw] at h
  cases hg : s.players[s.currentPlayerIndex]? with
  | none => rw [hg] at h; exact absurd h (by simp)
  | some p =>
    rw [hg] at h
    simp only [] at h
    split at h
    case isTrue hpid =>
      have hsum := fun c => sum_hand_set s.players s.currentPlayerIndex p
        { p with hand := p.hand ++ [c] } hg
      by_cases hd : s.deck.isEmpty
      · rw [if_pos hd] at h
        have hdnil : s.deck = [] := by simpa [List.isEmpty_iff] using hd
        cases hpop : pyPop s.discardPile with
        | none => rw [hpop] at h; exact absurd h (by simp)
        | some tr =>
          obtain ⟨top, rest⟩ := tr
          rw [hpop] at h
          simp only [] at h
          cases hp2 : pyPop (f rest) with
          | none => rw [hp2] at h; exact absurd h (by simp)
          | some cd =>
            obtain ⟨c, deck2⟩ := cd
            rw [hp2] at h
            simp only [] at h
            cases h
            have hl1 := pyPop_length hpop
            have hl2 := pyPop_length hp2
            have hl3 : (f rest).length = rest.length := (hf rest).length_eq
            have hdlen : s.deck.length = 0 := by rw [hdnil]; rfl
            have := hsum c
            simp only [totalCards] at this ⊢
            simp only [List.length_append, List.length_cons, List.length_nil] at this ⊢
            omega
      · rw [if_neg hd] at h
        simp only [] at h
        cases hp2 : pyPop s.deck with
        | none => rw [hp2] at h; exact absurd h (by simp)
        | some cd =>
          obtain ⟨c, deck2⟩ := cd
          rw [hp2] at h
          simp only [] at h
          cases h
          have hl2 := pyPop_length hp2
          have := hsum c
          simp only [totalCards] at this ⊢
          simp only [List.length_append, List.length_cons, List.length_nil] at this ⊢
          omega
    case isFalse => cases h; rfl

/- handle_call_uno only toggles flags: every hand is preserved. -/
theorem call_uno_hands (pid : String) : ∀ ps : List Player,
    handSizes (ps.map fun p =>
      if p.id = pid ∧ p.hand.length = 2 then { p with calledUno := true } else p)
      = handSizes ps := by
  intro ps
  induction ps with
  | nil => rfl
  | cons a l ih =>
    simp only [List.map_cons, handSizes, List.sum_cons, List.map_map] at ih ⊢
    have ha : (if a.id = pid ∧ a.hand.length = 2 then
        { a with calledUno := true } else a).hand.length = a.hand.length := by
      split <;> rfl
    rw [ha, ih]

theorem call_uno_conserve (pid : String) (s : GameState) :
    totalCards (handle_call_uno pid s).1 = totalCards s := by
  simp only [handle_call_uno, totalCards]
  rw [call_uno_hands]

theorem popN_spec : ∀ (n : Nat) (d cs d2 : List Card), popN n d = some (cs, d2) →
    cs.length = n ∧ d2.length + n = d.length := by
  intro n
  induction n with
  | zero =>
    intro d cs d2 h
    rw [popN] at h
    cases h
    simp
  | succ m ih =>
    intro d cs d2 h
    rw [popN] at h
    cases hp : pyPop d with
    | none => rw [hp] at h; exact absurd h (by simp)
    | some cd =>
      obtain ⟨c, d1⟩ := cd
      rw [hp] at h
      simp only [] at h
      cases hq : popN m d1 with
      | none => rw [hq] at h; exact absurd h (by simp)
      | some cs2 =>
        obtain ⟨cs1, dd⟩ := cs2
        rw [hq] at h
        cases h
        obtain ⟨iha, ihb⟩ := ih d1 _ _ hq
        have hl := pyPop_length hp
        simp only [List.length_cons]
        omega

theorem deal_spec : ∀ (ps : List Player) (d : List Card) (ps1 : List Player)
    (d2 : List Card), deal_hands ps d = some (ps1, d2) →
    ps1.length = ps.length ∧ (∀ q ∈ ps1, q.hand.length = 7) ∧
      handSizes ps1 = 7 * ps.length ∧ d2.length + 7 * ps.length = d.length := by
  intro ps
  induction ps with
  | nil =>
    intro d ps1 d2 h
    rw [deal_hands] at h
    cases h
    simp [handSizes]
  | cons p rest ih =>
    intro d ps1 d2 h
    rw [deal_hands] at h
    cases hp : popN 7 d with
    | none => rw [hp] at h; exact absurd h (by simp)
    | some hd1 =>
      obtain ⟨hnd, d1⟩ := hd1
      rw [hp] at h
      simp only [] at h
      cases hq : deal_hands rest d1 with
      | none => rw [hq] at h; exact absurd h (by simp)
      | some pd =>
        obtain ⟨ps2, dd⟩ := pd
        rw [hq] at h
        cases h
        obtain ⟨hp1, hp2⟩ := popN_spec 7 d _ _ hp
        obtain ⟨ih1, ih2, ih3, ih4⟩ := ih d1 _ _ hq
        refine ⟨by simp [ih1], ?_, ?_, ?_⟩
        · intro q hq2
          rcases List.mem_cons.mp hq2 with hq3 | hq3
          · rw [hq3]; exact hp1
          · exact ih2 q hq3
        · simp only [handSizes, List.map_cons, List.sum_cons, List.length_cons] at ih3 ⊢
          omega
        · simp only [List.length_cons]
          omega

theorem find_seed_spec : ∀ (fuel : Nat) (d : List Card) (c : Card) (d2 : List Card),
    find_seed fuel d = some (c, d2) →
    c.color ≠ "wild" ∧ d2.length + 1 = d.length := by
  intro fuel
  induction fuel with
  | zero => intro d c d2 h; rw [find_seed] at h; exact absurd h (by simp)
  | succ m ih =>
    intro d c d2 h
    rw [find_seed] at h
    cases hp : pyPop d with
    | none => rw [hp] at h; exact absurd h (by simp)
    | some sd =>
      obtain ⟨start, d1⟩ := sd
      rw [hp] at h
      simp only [] at h
      have hl := pyPop_length hp
      by_cases hw : start.color = "wild"
      · rw [if_pos hw] at h
        obtain ⟨ih1, ih2⟩ := ih (start :: d1) c d2 h
        simp only [List.length_cons] at ih2
        exact ⟨ih1, by omega⟩
      · rw [if_neg hw] at h
        cases h
        exact ⟨hw, by omega⟩

/- A successful start distributes the 108 cards over hands, deck and the seed
   discard card. -/
theorem start_total {d : List Card} {pid : String} {ps : List Player} {s : GameState}
    (hlen : d.length = 108) (h : handle_start_game d pid ps = some s) :
    totalCards s = 108 := by
  rw [handle_start_game] at h
  split at h
  · cases hd : deal_hands ps d with
    | none => rw [hd] at h; exact absurd h (by simp)
    | some pd =>
      obtain ⟨ps1, d1⟩ := pd
      rw [hd] at h
      simp only [] at h
      cases hs : find_seed d1.length d1 with
      | none => rw [hs] at h; exact absurd h (by simp)
      | some sd =>
        obtain ⟨start, d2⟩ := sd
        rw [hs] at h
        cases h
        obtain ⟨_, _, h3, h4⟩ := deal_spec ps d ps1 d1 hd
        obtain ⟨_, h6⟩ := find_seed_spec d1.length d1 start d2 hs
        simp only [totalCards, List.length_cons, List.length_nil]
        omega
  · exact absurd h (by simp)

theorem id_shuffle : ValidShuffle (fun l => l) := fun l => List.Perm.refl l

/- Every state of the 14-player exhaustion trace is reachable. -/
theorem drawChain_reachable : ∀ (k : Nat) (s : GameState),
    drawChain k = some s → Reachable s := by
  intro k
  induction k with
  | zero =>
    intro s h
    rw [drawChain] at h
    exact Reachable.start create_deck "p0" roster14 s (List.Perm.refl _) h
  | succ m ih =>
    intro s h
    rw [drawChain] at h
    cases hc : drawChain m with
    | none => rw [hc] at h; exact absurd h (by simp)
    | some s1 =>
      rw [hc] at h
      simp only [Option.some_bind, Option.map_eq_some'] at h
      obtain ⟨pr, hap, hfst⟩ := h
      rw [← hfst]
      exact Reachable.step (fun l => l) (Op.draw "p0") s1 pr.1 pr.2 (ih s1 hc)
        id_shuffle hap

/- The next-player index is always in range when the roster is nonempty. -/
theorem get_next_lt (s : GameState) (h : 0 < s.players.length) :
    get_next_player_index s < s.players.length := by
  rw [get_next_player_index]
  have hn : (0 : Int) < (s.players.length : Int) := by omega
  have h1 := Int.emod_nonneg ((s.currentPlayerIndex : Int) + s.direction)
    (by omega : (s.players.length : Int) ≠ 0)
  have h2 := Int.emod_lt_of_pos ((s.currentPlayerIndex : Int) + s.direction) hn
  omega

/- With at least two players and a unit direction, the next player differs
   from the current player. -/
theorem next_ne (s : GameState) (h2 : 2 ≤ s.players.length)
    (hdir : s.direction = 1 ∨ s.direction = -1)
    (hidx : s.currentPlayerIndex < s.players.length) :
    get_next_player_index s ≠ s.currentPlayerIndex := by
  intro hc
  rw [get_next_player_index] at hc
  have hn0 : (0 : Int) < (s.players.length : Int) := by omega
  have hr0 := Int.emod_nonneg ((s.currentPlayerIndex : Int) + s.direction)
    (by omega : (s.players.length : Int) ≠ 0)
  have hrn := Int.emod_lt_of_pos ((s.currentPlayerIndex : Int) + s.direction) hn0
  have hr : ((s.currentPlayerIndex : Int) + s.direction) % (s.players.length : Int)
      = (s.currentPlayerIndex : Int) := by omega
  have hii : (s.currentPlayerIndex : Int) % (s.players.length : Int)
      = (s.currentPlayerIndex : Int) := Int.emod_eq_of_lt (by omega) (by omega)
  have hmods : ((s.currentPlayerIndex : Int) + s.direction) % (s.players.length : Int)
      = (s.currentPlayerIndex : Int) % (s.players.length : Int) := by rw [hr, hii]
  have hd0 := Int.emod_eq_emod_iff_emod_sub_eq_zero.mp hmods
  have hdm : s.direction % (s.players.length : Int) = 0 := by
    have he : (s.currentPlayerIndex : Int) + s.direction - (s.currentPlayerIndex : Int)
        = s.direction := by ring
    rw [he] at hd0
    exact hd0
  rcases hdir with hd | hd <;> rw [hd] at hdm
  · rw [Int.emod_eq_of_lt (by omega) (by omega)] at hdm
    omega
  · have hdvd : (s.players.length : Int) ∣ (-1 : Int) := Int.dvd_of_emod_eq_zero hdm
    have hdvd1 : (s.players.length : Int) ∣ (1 : Int) := (dvd_neg).mp hdvd
    have := Int.le_of_dvd (by omega) hdvd1
    omega

/- apply_effect only fails on an empty roster. -/
theorem apply_effect_some (card : Card) (s2 : GameState) (h : 0 < s2.players.length) :
    ∃ s3, apply_effect card s2 = some s3 := by
  rw [apply_effect]
  split
  · exact ⟨_, rfl⟩
  split
  · exact ⟨_, rfl⟩
  split
  · cases hn : s2.players[get_next_player_index s2]? with
    | none =>
      have hlt := get_next_lt s2 h
      have := List.getElem?_eq_none_iff.mp hn
      omega
    | some nxt => exact ⟨_, by simp only [hn]; rfl⟩
  · exact ⟨_, rfl⟩

/- A successful non-winning play is the card effect applied to play_mid,
   followed by the turn advance. -/
theorem play_shape (player : Player) (card : Card) (cc : Option String)
    (s : GameState) (hne : ¬ (player.hand.erase card).length = 0) :
    play_after_checks player card cc s =
      (apply_effect card (play_mid player card cc s)).map fun s3 =>
        (advance_turn s3, [Event.gameUpdate]) := by
  simp only [play_after_checks, play_mid, if_neg hne]

/- The successful-draw equation in the recycling case: empty deck, the discard
   pile pops into top and rest, and the shuffled rest pops into the drawn card
   and the new deck. -/
theorem handle_draw_empty_eq (f : List Card → List Card) (pid : String)
    (s : GameState) (p : Player) (top : Card) (rest : List Card) (c : Card)
    (deck2 : List Card)
    (hg : s.players[s.currentPlayerIndex]? = some p)
    (hpid : p.id = pid)
    (hdeck : s.deck = [])
    (hpop : pyPop s.discardPile = some (top, rest))
    (hp2 : pyPop (f rest) = some (c, deck2)) :
    handle_draw f pid s = some ({ s with
      players := s.players.set s.currentPlayerIndex { p with hand := p.hand ++ [c] },
      deck := deck2,
      discardPile := [top],
      hasDrawn := true }, [Event.gameUpdate]) := by
  rw [handle_draw, hg]
  simp only []
  rw [if_pos hpid]
  have hcond : s.deck.isEmpty = true := by rw [hdeck]; rfl
  simp only [if_pos hcond, hpop, hp2]

/- The successful-draw equation when the deck is nonempty. -/
theorem handle_draw_nonempty_eq (f : List Card → List Card) (pid : String)
    (s : GameState) (p : Player) (c : Card) (deck2 : List Card)
    (hg : s.players[s.currentPlayerIndex]? = some p)
    (hpid : p.id = pid)
    (hdeck : ¬ s.deck = [])
    (hp2 : pyPop s.deck = some (c, deck2)) :
    handle_draw f pid s = some ({ s with
      players := s.players.set s.currentPlayerIndex { p with hand := p.hand ++ [c] },
      deck := deck2,
      hasDrawn := true }, [Event.gameUpdate]) := by
  rw [handle_draw, hg]
  simp only []
  rw [if_pos hpid]
  have hcond : ¬ s.deck.isEmpty = true := by
    simp [List.isEmpty_iff, hdeck]
  simp only [if_neg hcond, hp2]

end UNO

namespace UNO

/-- C1: for every match that has been started and for every sequence of valid
operations (play_card, draw_card, call_uno) applied to it, the total number of
cards across all hands plus the draw pile plus the discard pile stays exactly
108: no operation creates, duplicates, or loses a card. -/
theorem C1_conservation (s : GameState) (h : Reachable s) : totalCards s = 108 := by
  induction h with
  | start d pid ps s hperm hst =>
    exact start_total (hperm.length_eq.trans create_deck_length) hst
  | step f op s s' evs hr hvf hap ih =>
    cases op with
    | play pid cid cc =>
      rw [show applyOp f (Op.play pid cid cc) s = handle_play_card pid cid cc s
        from rfl] at hap
      exact (play_conserve hap).trans ih
    | draw pid =>
      rw [show applyOp f (Op.draw pid) s = handle_draw f pid s from rfl] at hap
      exact (draw_conserve hvf hap).trans ih
    | callUno pid =>
      rw [show applyOp f (Op.callUno pid) s = some (handle_call_uno pid s)
        from rfl] at hap
      injection hap with h2
      have hs' : s' = (handle_call_uno pid s).1 := by rw [h2]
      rw [hs']
      exact (call_uno_conserve pid s).trans ih

/-- C1 witness: the freshly started two-player match holds 108 cards. -/
theorem C1_witness : totalCards s0 = 108 :=
  C1_conservation s0
    (Reachable.start create_deck "p0" roster2 s0 (List.Perm.refl _) (by decide))

/-- C2: evaluation at the failing input.  Alice empties her hand: the winner is
set and the terminal event broadcast, but the finished match is not frozen — a
subsequent draw_card by the winner still mutates the state, and a call_uno by
Bob still mutates his flag, contradicting the claim that no operation mutates
state after the transition. -/
theorem C2_after_win_mutation :
    handle_play_card "a" "r5" none sC2 = some (sC2win, [Event.gameOver "Alice"]) ∧
    sC2win.winner = some "Alice" ∧
    handle_draw (fun l => l) "a" sC2win = some (sC2post, [Event.gameUpdate]) ∧
    sC2post ≠ sC2win ∧
    (handle_call_uno "b" sC2win).1 ≠ sC2win := by decide

/-- C3: evaluation at the failing input.  Player p0 plays a draw-two in a
three-player match: the next player p1 draws exactly two cards, but the turn
then passes TO p1 (currentPlayerIndex becomes 1, not 2) — the victim of the
draw-two is not skipped, contradicting the claim. -/
theorem C3_draw_two_no_skip :
    handle_play_card "p0" "rd2" none sC3 = some (sC3res, [Event.gameUpdate]) ∧
    sC3res.players.map (fun q => q.hand.length) = [2, 3, 1] ∧
    sC3res.currentPlayerIndex = 1 ∧ ¬ sC3res.currentPlayerIndex = 2 := by decide

/-- C4: a play_card issued by a player other than the current player, or naming
a card id absent from the hand of the current player, returns the state unchanged
and broadcasts nothing. -/
theorem C4_reject_no_op (pid cid : String) (cc : Option String) (s : GameState)
    (player : Player)
    (hg : s.players[s.currentPlayerIndex]? = some player)
    (h : player.id ≠ pid ∨ player.hand.find? (fun c => c.id == cid) = none) :
    handle_play_card pid cid cc s = some (s, []) := by
  rw [handle_play_card, hg]
  simp only []
  rcases h with h | h
  · rw [if_neg h]
  · by_cases hpid : player.id = pid
    · rw [if_pos hpid, h]
    · rw [if_neg hpid]

/-- C4 witness: Ben plays out of turn in the concrete match sC4; nothing
changes. -/
theorem C4_witness : handle_play_card "b" "r5" none sC4 = some (sC4, []) :=
  C4_reject_no_op "b" "r5" none sC4
    { id := "a", name := "Ann", isHost := true,
      hand := [⟨"red", "5", "r5"⟩, ⟨"red", "6", "r6"⟩], calledUno := false }
    (by decide) (Or.inl (by decide))

/-- C5: after a successful start_game on a lobby with N players every hand has
exactly 7 cards, the discard pile is a single non-wild card, the draw pile has
108 - 7N - 1 cards, the current player index is 0 and the direction is +1. -/
theorem C5_start_state (d : List Card) (pid : String) (ps : List Player)
    (s : GameState) (hperm : d.Perm create_deck)
    (h : handle_start_game d pid ps = some s) :
    s.players.length = ps.length ∧
    (∀ q ∈ s.players, q.hand.length = 7) ∧
    s.discardPile.length = 1 ∧
    (∀ c ∈ s.discardPile, c.color ≠ "wild") ∧
    s.deck.length = 108 - 7 * ps.length - 1 ∧
    s.currentPlayerIndex = 0 ∧
    s.direction = 1 := by
  have hlen : d.length = 108 := hperm.length_eq.trans create_deck_length
  rw [handle_start_game] at h
  split at h
  · cases hd : deal_hands ps d with
    | none => rw [hd] at h; exact absurd h (by simp)
    | some pd =>
      obtain ⟨ps1, d1⟩ := pd
      rw [hd] at h
      simp only [] at h
      cases hs : find_seed d1.length d1 with
      | none => rw [hs] at h; exact absurd h (by simp)
      | some sd =>
        obtain ⟨start, d2⟩ := sd
        rw [hs] at h
        cases h
        obtain ⟨h1, h2, h3, h4⟩ := deal_spec ps d _ _ hd
        obtain ⟨h5, h6⟩ := find_seed_spec d1.length d1 _ _ hs
        refine ⟨h1, h2, rfl, ?_, ?_, rfl, rfl⟩
        · intro c hc
          simp only [List.mem_singleton] at hc
          rw [hc]
          exact h5
        · simp only []
          omega
  · exact absurd h (by simp)

/-- C5 witness: the concrete two-player start s0 satisfies all the start-state
properties. -/
theorem C5_witness :
    s0.players.length = roster2.length ∧
    (∀ q ∈ s0.players, q.hand.length = 7) ∧
    s0.discardPile.length = 1 ∧
    (∀ c ∈ s0.discardPile, c.color ≠ "wild") ∧
    s0.deck.length = 108 - 7 * roster2.length - 1 ∧
    s0.currentPlayerIndex = 0 ∧
    s0.direction = 1 :=
  C5_start_state create_deck "p0" roster2 s0 (List.Perm.refl _) (by decide)

/-- C6: when the current player draws with an empty draw pile and more than one
card on the discard pile, all cards of the discard pile except its top card
move (reshuffled, i.e. permuted) into the draw pile, the discard pile keeps
exactly its former top card, the total card count is preserved, and the drawn
card comes from the recycled cards. -/
theorem C6_recycle (f : List Card → List Card) (pid : String) (s : GameState)
    (p : Player) (hf : ValidShuffle f)
    (hg : s.players[s.currentPlayerIndex]? = some p)
    (hpid : p.id = pid)
    (hdeck : s.deck = [])
    (hdis : 1 < s.discardPile.length) :
    ∃ top rest c s',
      pyPop s.discardPile = some (top, rest) ∧
      handle_draw f pid s = some (s', [Event.gameUpdate]) ∧
      s'.discardPile = [top] ∧
      (s'.deck ++ [c]).Perm rest ∧
      c ∈ rest ∧
      (∃ q, s'.players[s.currentPlayerIndex]? = some q ∧ q.hand = p.hand ++ [c]) ∧
      totalCards s' = totalCards s := by
  have hlt : s.currentPlayerIndex < s.players.length := (List.getElem?_eq_some.mp hg).1
  have hdne : s.discardPile ≠ [] := by
    intro hn
    rw [hn] at hdis
    simp at hdis
  obtain ⟨top, rest, hpop⟩ := pyPop_some_of_ne_nil hdne
  have hrl := pyPop_length hpop
  have hfl : (f rest).length = rest.length := (hf rest).length_eq
  have hfne : f rest ≠ [] := by
    intro hn
    rw [hn] at hfl
    simp at hfl
    omega
  obtain ⟨c, deck2, hp2⟩ := pyPop_some_of_ne_nil hfne
  have heq := handle_draw_empty_eq f pid s p top rest c deck2 hg hpid hdeck hpop hp2
  refine ⟨top, rest, c, _, hpop, heq, rfl, ?_, ?_,
    ⟨{ p with hand := p.hand ++ [c] }, ?_, rfl⟩, draw_conserve hf heq⟩
  · have hperm := hf rest
    rw [pyPop_sound hp2] at hperm
    exact hperm
  · have hcm : c ∈ f rest := by
      rw [pyPop_sound hp2]
      simp
    exact (hf rest).mem_iff.mp hcm
  · exact List.getElem?_set_self hlt

/-- C6 witness: the concrete empty-deck state sC6w recycles its three-card
discard pile. -/
theorem C6_witness :
    ∃ top rest c s',
      pyPop sC6w.discardPile = some (top, rest) ∧
      handle_draw (fun l => l) "a" sC6w = some (s', [Event.gameUpdate]) ∧
      s'.discardPile = [top] ∧
      (s'.deck ++ [c]).Perm rest ∧
      c ∈ rest ∧
      (∃ q, s'.players[sC6w.currentPlayerIndex]? = some q ∧
        q.hand = [⟨"red", "5", "r5"⟩] ++ [c]) ∧
      totalCards s' = totalCards sC6w :=
  C6_recycle (fun l => l) "a" sC6w
    { id := "a", name := "Ann", isHost := true,
      hand := [⟨"red", "5", "r5"⟩], calledUno := false }
    id_shuffle (by decide) rfl rfl (by decide)

/-- C7 counterexample: the claim says the penalty makes the hand grow from 1 to
3 in every in-progress match, but with an empty draw pile the two guarded pops
draw nothing: Ann drops to one undeclared card and stays at one card.  (Such a
state is reachable because draw_card may be repeated until the draw pile is
gone.) -/
theorem C7_empty_deck_no_penalty_cards :
    handle_play_card "a" "ra" none sC7 = some (sC7res, [Event.gameUpdate]) ∧
    sC7res.players.map (fun q => q.hand.length) = [1, 1] ∧
    (∀ q ∈ sC7res.players, q.calledUno = false) := by decide

/-- C7 (amended): when a successful play leaves the playing player with exactly
one card, the player had not declared, and the draw pile has at least two
cards, the penalty draw grows the hand from 1 to 3 before the turn advances
and the declaration flag is cleared. -/
theorem C7_penalty_applies (pid cid : String) (cc : Option String) (s : GameState)
    (player : Player) (card : Card)
    (hg : s.players[s.currentPlayerIndex]? = some player)
    (hpid : player.id = pid)
    (hfind : player.hand.find? (fun c => c.id == cid) = some card)
    (h1 : (player.hand.erase card).length = 1)
    (hu : player.calledUno = false)
    (hn2 : 2 ≤ s.players.length)
    (hdir : s.direction = 1 ∨ s.direction = -1)
    (hdk : 2 ≤ s.deck.length) :
    ∃ s', handle_play_card pid cid cc s = some (s', [Event.gameUpdate]) ∧
      ∃ q, s'.players[s.currentPlayerIndex]? = some q ∧
        q.hand.length = 3 ∧ q.calledUno = false := by
  have hlt : s.currentPlayerIndex < s.players.length := (List.getElem?_eq_some.mp hg).1
  have hmlen : (play_mid player card cc s).players.length = s.players.length := by
    simp [play_mid]
  obtain ⟨s3, he⟩ := apply_effect_some card (play_mid player card cc s) (by omega)
  have heq : handle_play_card pid cid cc s
      = some (advance_turn s3, [Event.gameUpdate]) := by
    rw [handle_play_card, hg]
    simp only []
    rw [if_pos hpid, hfind]
    simp only []
    rw [play_shape player card cc s (by omega), he]
    rfl
  have hpm : (play_mid player card cc s).players[s.currentPlayerIndex]?
      = some { player with
          hand := (penalty_draw (player.hand.erase card) player.calledUno s.deck).1,
          calledUno := false } := by
    rw [play_mid]
    exact List.getElem?_set_self (by simpa using hlt)
  obtain ⟨-, -, -, -, hent⟩ := apply_effect_spec he
  obtain ⟨q', hq', hcall, hid, hunch⟩ := hent s.currentPlayerIndex _ hpm
  have hnei : s.currentPlayerIndex ≠ get_next_player_index (play_mid player card cc s) := by
    have h3 := next_ne (play_mid player card cc s) (by omega) hdir
      (by rw [hmlen]; exact hlt)
    exact fun hcc => h3 hcc.symm
  have hq'q := hunch hnei
  refine ⟨_, heq, q', hq', ?_, ?_⟩
  · rw [hq'q]
    have hpd : penalty_draw (player.hand.erase card) player.calledUno s.deck
        = draw_loop 2 (player.hand.erase card) s.deck := by
      rw [penalty_draw, if_pos ⟨h1, hu⟩]
    simp only []
    rw [hpd]
    have hdlt : (draw_loop 2 (player.hand.erase card) s.deck).1.length
        = (player.hand.erase card).length + 2 := (draw_loop_two hdk).1
    omega
  · rw [hq'q]

/-- C7 witness: with two cards in the deck the penalty grows the concrete hand
from 1 to 3 and clears the flag. -/
theorem C7_witness :
    ∃ s', handle_play_card "a" "ra" none sC7w = some (s', [Event.gameUpdate]) ∧
      ∃ q, s'.players[sC7w.currentPlayerIndex]? = some q ∧
        q.hand.length = 3 ∧ q.calledUno = false :=
  C7_penalty_applies "a" "ra" none sC7w
    { id := "a", name := "Ann", isHost := true,
      hand := [⟨"red", "1", "ra"⟩, ⟨"red", "2", "rb"⟩], calledUno := false }
    ⟨"red", "1", "ra"⟩
    (by decide) rfl (by decide) (by decide) rfl (by decide) (Or.inl rfl) (by decide)

/-- C8 counterexample: a call_uno by a player holding three cards changes no
state, yet the handler still broadcasts a game_update — the claim says a
no-op call triggers no broadcast. -/
theorem C8_no_op_still_broadcasts :
    (handle_call_uno "a" sC8).1 = sC8 ∧ (handle_call_uno "a" sC8).2 ≠ [] := by decide

/-- C8 (amended): call_uno sets the declaration flag of exactly the players
whose id matches and whose hand has exactly two cards, changes nothing else in
the state, and in every case (also when nothing changed) broadcasts one
game_update. -/
theorem C8_call_uno_spec (pid : String) (s : GameState) :
    (handle_call_uno pid s).2 = [Event.gameUpdate] ∧
    (handle_call_uno pid s).1.deck = s.deck ∧
    (handle_call_uno pid s).1.discardPile = s.discardPile ∧
    (handle_call_uno pid s).1.currentColor = s.currentColor ∧
    (handle_call_uno pid s).1.currentValue = s.currentValue ∧
    (handle_call_uno pid s).1.currentPlayerIndex = s.currentPlayerIndex ∧
    (handle_call_uno pid s).1.direction = s.direction ∧
    (handle_call_uno pid s).1.hasDrawn = s.hasDrawn ∧
    (handle_call_uno pid s).1.winner = s.winner ∧
    ∀ (i : Nat) (p : Player), s.players[i]? = some p →
      ∃ q : Player, (handle_call_uno pid s).1.players[i]? = some q ∧
        q.id = p.id ∧ q.name = p.name ∧ q.isHost = p.isHost ∧ q.hand = p.hand ∧
        (q.calledUno = true ↔
          (p.calledUno = true ∨ (p.id = pid ∧ p.hand.length = 2))) := by
  refine ⟨rfl, rfl, rfl, rfl, rfl, rfl, rfl, rfl, rfl, ?_⟩
  intro i p hp
  refine ⟨if p.id = pid ∧ p.hand.length = 2 then { p with calledUno := true } else p,
    ?_, ?_, ?_, ?_, ?_, ?_⟩
  · simp only [handle_call_uno]
    rw [List.getElem?_map, hp]
    rfl
  · split <;> rfl
  · split <;> rfl
  · split <;> rfl
  · split <;> rfl
  · by_cases hc : p.id = pid ∧ p.hand.length = 2
    · rw [if_pos hc]
      simp [hc]
    · rw [if_neg hc]
      simp [hc]

/-- C8 witness: the full call_uno description instantiated at the concrete
state sC8w where Ann holds exactly two cards. -/
theorem C8_witness :
    (handle_call_uno "a" sC8w).2 = [Event.gameUpdate] ∧
    (handle_call_uno "a" sC8w).1.deck = sC8w.deck ∧
    (handle_call_uno "a" sC8w).1.discardPile = sC8w.discardPile ∧
    (handle_call_uno "a" sC8w).1.currentColor = sC8w.currentColor ∧
    (handle_call_uno "a" sC8w).1.currentValue = sC8w.currentValue ∧
    (handle_call_uno "a" sC8w).1.currentPlayerIndex = sC8w.currentPlayerIndex ∧
    (handle_call_uno "a" sC8w).1.direction = sC8w.direction ∧
    (handle_call_uno "a" sC8w).1.hasDrawn = sC8w.hasDrawn ∧
    (handle_call_uno "a" sC8w).1.winner = sC8w.winner ∧
    ∀ (i : Nat) (p : Player), sC8w.players[i]? = some p →
      ∃ q : Player, (handle_call_uno "a" sC8w).1.players[i]? = some q ∧
        q.id = p.id ∧ q.name = p.name ∧ q.isHost = p.isHost ∧ q.hand = p.hand ∧
        (q.calledUno = true ↔
          (p.calledUno = true ∨ (p.id = "a" ∧ p.hand.length = 2))) :=
  C8_call_uno_spec "a" sC8w

/-- C9 counterexample: DeckExhausted is reachable.  From a started 14-player
match the current player p0 draws 9 times (nothing limits repeated draws in a
turn); the draw pile is then empty and the discard pile holds just the seed
card, card conservation still holds, and the next draw_card by the current
player fails (the pop after recycling raises). -/
theorem C9_deck_exhausted_reachable :
    drawChain 9 = some sBad ∧ Reachable sBad ∧ totalCards sBad = 108 ∧
    sBad.deck = [] ∧ sBad.discardPile.length = 1 ∧
    applyOp (fun l => l) (Op.draw "p0") sBad = none :=
  ⟨by decide, drawChain_reachable 9 sBad (by decide), by decide, by decide,
    by decide, by decide⟩

/-- C9 (amended): a draw_card by the current player yields a card whenever the
draw pile is nonempty or the discard pile holds more than one card; the
degenerate failure state (empty draw pile and at most one discard card) is
reachable, so DeckExhausted is not unreachable. -/
theorem C9_draw_succeeds (f : List Card → List Card) (pid : String) (s : GameState)
    (p : Player) (hf : ValidShuffle f)
    (hg : s.players[s.currentPlayerIndex]? = some p)
    (hpid : p.id = pid)
    (h : s.deck ≠ [] ∨ 1 < s.discardPile.length) :
    ∃ s' c, handle_draw f pid s = some (s', [Event.gameUpdate]) ∧
      ∃ q, s'.players[s.currentPlayerIndex]? = some q ∧ q.hand = p.hand ++ [c] := by
  have hlt : s.currentPlayerIndex < s.players.length := (List.getElem?_eq_some.mp hg).1
  by_cases hdeck : s.deck = []
  · rcases h with h | h
    · exact absurd hdeck h
    · have hdne : s.discardPile ≠ [] := by
        intro hn
        rw [hn] at h
        simp at h
      obtain ⟨top, rest, hpop⟩ := pyPop_some_of_ne_nil hdne
      have hrl := pyPop_length hpop
      have hfl : (f rest).length = rest.length := (hf rest).length_eq
      have hfne : f rest ≠ [] := by
        intro hn
        rw [hn] at hfl
        simp at hfl
        omega
      obtain ⟨c, deck2, hp2⟩ := pyPop_some_of_ne_nil hfne
      have heq := handle_draw_empty_eq f pid s p top rest c deck2 hg hpid hdeck hpop hp2
      exact ⟨_, c, heq,
        ⟨{ p with hand := p.hand ++ [c] }, List.getElem?_set_self hlt, rfl⟩⟩
  · obtain ⟨c, deck2, hp2⟩ := pyPop_some_of_ne_nil hdeck
    have heq := handle_draw_nonempty_eq f pid s p c deck2 hg hpid hdeck hp2
    exact ⟨_, c, heq,
      ⟨{ p with hand := p.hand ++ [c] }, List.getElem?_set_self hlt, rfl⟩⟩

/-- C9 witness: with a nonempty draw pile the current player receives a card. -/
theorem C9_witness :
    ∃ s' c, handle_draw (fun l => l) "a" sC8 = some (s', [Event.gameUpdate]) ∧
      ∃ q, s'.players[sC8.currentPlayerIndex]? = some q ∧
        q.hand = [⟨"red", "1", "ra"⟩, ⟨"red", "2", "rb"⟩, ⟨"red", "3", "rc"⟩] ++ [c] :=
  C9_draw_succeeds (fun l => l) "a" sC8
    { id := "a", name := "Ann", isHost := true,
      hand := [⟨"red", "1", "ra"⟩, ⟨"red", "2", "rb"⟩, ⟨"red", "3", "rc"⟩],
      calledUno := false }
    id_shuffle (by decide) rfl (Or.inl (by decide))

/-- C10: after every successful play that does not empty the hand of the
playing player, the calledUno flag of the playing player and the hasDrawn flag
of the match are both false, whether or not the penalty draw applied. -/
theorem C10_flags_cleared (pid cid : String) (cc : Option String) (s : GameState)
    (player : Player) (card : Card)
    (hg : s.players[s.currentPlayerIndex]? = some player)
    (hpid : player.id = pid)
    (hfind : player.hand.find? (fun c => c.id == cid) = some card)
    (hne : ¬ (player.hand.erase card).length = 0) :
    ∃ s', handle_play_card pid cid cc s = some (s', [Event.gameUpdate]) ∧
      s'.hasDrawn = false ∧
      ∀ q, s'.players[s.currentPlayerIndex]? = some q → q.calledUno = false := by
  have hlt : s.currentPlayerIndex < s.players.length := (List.getElem?_eq_some.mp hg).1
  have hmlen : (play_mid player card cc s).players.length = s.players.length := by
    simp [play_mid]
  obtain ⟨s3, he⟩ := apply_effect_some card (play_mid player card cc s) (by omega)
  have heq : handle_play_card pid cid cc s
      = some (advance_turn s3, [Event.gameUpdate]) := by
    rw [handle_play_card, hg]
    simp only []
    rw [if_pos hpid, hfind]
    simp only []
    rw [play_shape player card cc s hne, he]
    rfl
  have hpm : (play_mid player card cc s).players[s.currentPlayerIndex]?
      = some { player with
          hand := (penalty_draw (player.hand.erase card) player.calledUno s.deck).1,
          calledUno := false } := by
    rw [play_mid]
    exact List.getElem?_set_self (by simpa using hlt)
  obtain ⟨-, -, -, -, hent⟩ := apply_effect_spec he
  obtain ⟨q', hq', hcall, hid, hunch⟩ := hent s.currentPlayerIndex _ hpm
  refine ⟨_, heq, rfl, ?_⟩
  intro q hq
  simp only [advance_turn] at hq
  have hqq : q = q' := by
    rw [hq'] at hq
    exact (Option.some_inj.mp hq).symm
  rw [hqq, hcall]

/-- C10 witness: Ann had declared and had hasDrawn set; after her play both
flags are false. -/
theorem C10_witness :
    ∃ s', handle_play_card "a" "ra" none sC10w = some (s', [Event.gameUpdate]) ∧
      s'.hasDrawn = false ∧
      ∀ q, s'.players[sC10w.currentPlayerIndex]? = some q → q.calledUno = false :=
  C10_flags_cleared "a" "ra" none sC10w
    { id := "a", name := "Ann", isHost := true,
      hand := [⟨"red", "1", "ra"⟩, ⟨"red", "2", "rb"⟩, ⟨"red", "3", "rc"⟩],
      calledUno := true }
    ⟨"red", "1", "ra"⟩
    (by decide) rfl (by decide) (by decide)

end UNO
